import Mathlib

/-!
Verification of the HyperMemo retrieval-and-ranking engine
(`src/supabase/functions/rag_query/index.ts` together with the
`match_bookmarks` SQL function from
`src/supabase/migrations/20251203000000_enable_pgvector.sql`).

Modelling conventions:
* JavaScript numbers (similarity scores, boost weights, thresholds) are
  modelled as exact rationals `ℚ`.
* `Array.prototype.sort` with the comparator `(a, b) => b.score - a.score`
  is a stable descending sort by score (ECMAScript guarantees stability);
  it is modelled by `List.mergeSort` with the relation `b.score ≤ a.score`.
* The external collaborators (embedding provider, pgvector distance
  operator `<=>`, LLM generation, prompt template) are abstract function
  parameters collected in `RagEnv`; the database tables behind the
  Supabase queries are explicit lists of rows in `Database`.
* Every external call made by the handler is recorded in a call trace
  (`List ExtCall`) so that short-circuit properties ("the store is never
  queried") are expressible.
-/

namespace RagQuery

/-- Row shape returned by the `match_bookmarks` RPC
(type `RpcMatch` in `rag_query/index.ts`). -/
structure RpcMatch where
  id : String
  user_id : String
  title : String
  url : String
  summary : String
  raw_content : String
  tags : List String
  created_at : String
  updated_at : String
  similarity : ℚ
deriving DecidableEq

/-- Bookmark projection embedded in a returned match
(the `bookmark` field of type `RagMatch` in `rag_query/index.ts`); note it
carries no `raw_content`. -/
structure RagBookmark where
  id : String
  title : String
  url : String
  summary : String
  tags : List String
deriving DecidableEq

/-- A ranked result (type `RagMatch` in `rag_query/index.ts`). -/
structure RagMatch where
  bookmark : RagBookmark
  score : ℚ
deriving DecidableEq

/-- The `buildSourcesText` function of `rag_query/index.ts`:
each match is rendered as an indexed line and the lines are joined by a
newline. The separator between title and summary is the source file's
literal three-character sequence `"â€”"` (a mojibake
rendering of an em dash: the bytes of U+2014 read back in CP-1252). -/
def buildSourcesText (matchList : List RagMatch) : String :=
  String.intercalate "\n"
    (matchList.enum.map (fun p =>
      "[S" ++ toString (p.1 + 1) ++ "] " ++ p.2.bookmark.title ++
        " â€” " ++ p.2.bookmark.summary))

/-- The comparator `(a, b) => b.score - a.score` of `rankBookmarks`
expressed as the Boolean relation "a may come before b". -/
def rankLE (a b : RagMatch) : Bool := b.score ≤ a.score

/-- Per-candidate body of the `.map` inside `rankBookmarks` in
`rag_query/index.ts`: computes the tag boost and final score and projects
the RPC row onto the response bookmark shape. The literal `1/5 : ℚ`
is the source's boost constant `0.2`. -/
def toRagMatch (requestTags : List String) (m : RpcMatch) : RagMatch :=
  let tagBoost : ℚ :=
    if requestTags.length > 0 then
      (((m.tags.filter (fun t => requestTags.contains t)).length : ℚ) /
        (requestTags.length : ℚ)) * (1/5)
    else 0
  { bookmark :=
      { id := m.id, title := m.title, url := m.url, summary := m.summary,
        tags := m.tags },
    score := m.similarity + tagBoost }

/-- The `rankBookmarks` function of `rag_query/index.ts`:
map to hybrid-scored matches, stable-sort descending by score,
truncate to `topK` (default 5). -/
def rankBookmarks (matchList : List RpcMatch) (requestTags : List String)
    (topK : Nat := 5) : List RagMatch :=
  ((matchList.map (toRagMatch requestTags)).mergeSort rankLE).take topK

/-- A row of the `bookmarks` table. `embedding = none` models SQL NULL. -/
structure BookmarkRow where
  id : String
  user_id : String
  title : String
  url : String
  summary : String
  raw_content : String
  embedding : Option (List ℚ)
  created_at : String
  updated_at : String
deriving DecidableEq

/-- A row of the `tags` table. -/
structure TagRow where
  id : String
  user_id : String
  name : String
deriving DecidableEq

/-- A row of the `bookmark_tags` join table. -/
structure BookmarkTagRow where
  bookmark_id : String
  tag_id : String
deriving DecidableEq

/-- The database state visible to the rag_query function. -/
structure Database where
  bookmarks : List BookmarkRow
  tags : List TagRow
  bookmark_tags : List BookmarkTagRow
deriving DecidableEq

/-- The tag-name subquery of `match_bookmarks`
(`select array_agg(t.name) from bookmark_tags bt join tags t on
t.id = bt.tag_id where bt.bookmark_id = b.id`). -/
def bookmarkTagNames (db : Database) (bid : String) : List String :=
  ((db.bookmark_tags.filter (fun bt => bt.bookmark_id = bid)).map
    (fun bt => (db.tags.filter (fun t => t.id = bt.tag_id)).map
      (fun t => t.name))).flatten

/-- Cosine distance `b.embedding <=> query_embedding` of a row; the `<=>`
operator itself is the abstract parameter `dist`. Rows with NULL
embedding never reach a point where this value matters (they are filtered
out), so the `none` branch returns an arbitrary value. -/
def rowDistance (dist : List ℚ → List ℚ → ℚ) (query : List ℚ)
    (b : BookmarkRow) : ℚ :=
  match b.embedding with
  | some e => dist e query
  | none => 0

/-- The tag-filter clause of `match_bookmarks`
(`filter_tag_ids is null or exists (select 1 from bookmark_tags bt where
bt.bookmark_id = b.id and bt.tag_id = any(filter_tag_ids))`). -/
def matchesTagFilter (db : Database) (fil : Option (List String))
    (b : BookmarkRow) : Bool :=
  match fil with
  | none => true
  | some tids =>
      db.bookmark_tags.any (fun bt => bt.bookmark_id = b.id ∧ bt.tag_id ∈ tids)

/-- The `match_bookmarks` SQL function of
`20251203000000_enable_pgvector.sql`: keep the caller's rows above the
similarity threshold that pass the tag filter (rows with NULL embedding
are excluded, as in SQL three-valued logic), order by ascending distance,
limit to `match_count`, and project each row (with its aggregated tag
names and `similarity = 1 - distance`). -/
def match_bookmarks (dist : List ℚ → List ℚ → ℚ) (db : Database)
    (query_embedding : List ℚ) (match_threshold : ℚ) (match_count : Nat)
    (filter_user_id : String) (filter_tag_ids : Option (List String)) :
    List RpcMatch :=
  let rows := db.bookmarks.filter (fun b =>
    b.embedding.isSome ∧
      match_threshold < 1 - rowDistance dist query_embedding b ∧
      b.user_id = filter_user_id ∧
      matchesTagFilter db filter_tag_ids b)
  let sorted := rows.mergeSort (fun b1 b2 =>
    rowDistance dist query_embedding b1 ≤ rowDistance dist query_embedding b2)
  (sorted.take match_count).map (fun b =>
    { id := b.id, user_id := b.user_id, title := b.title, url := b.url,
      summary := b.summary, raw_content := b.raw_content,
      tags := bookmarkTagNames db b.id,
      created_at := b.created_at, updated_at := b.updated_at,
      similarity := 1 - rowDistance dist query_embedding b })

/-- One external call made by the handler, for the call trace. -/
inductive ExtCall where
  | embedCall (text : String)
  | tagQueryCall (userId : String) (names : List String)
  | searchCall (userId : String) (filterTagIds : Option (List String))
  | generateCall (prompt : String)
deriving DecidableEq

/-- The environment of external collaborators of the handler: the
embedding provider (`embedText`), the pgvector distance operator `<=>`,
the LLM (`generateContent`), the prompt template (`ragPrompt`, from the
shared module), and the database state. -/
structure RagEnv where
  embed : String → List ℚ
  dist : List ℚ → List ℚ → ℚ
  generate : String → String
  ragPrompt : String → String → String
  db : Database

/-- The Supabase query inside `resolveTagIds`
(`from('tags').select('id').eq('user_id', userId).in('name', tagNames)`). -/
def tagIdsQuery (db : Database) (userId : String) (tagNames : List String) :
    List String :=
  (db.tags.filter (fun t => t.user_id = userId ∧ t.name ∈ tagNames)).map
    (fun t => t.id)

/-- The `resolveTagIds` function of `rag_query/index.ts`: an empty input
list returns `[]` without touching the database; otherwise the tag table
is queried (one `tagQueryCall` in the trace). -/
def resolveTagIds (db : Database) (userId : String) (tagNames : List String) :
    List String × List ExtCall :=
  if tagNames.length = 0 then ([], [])
  else (tagIdsQuery db userId tagNames,
    [ExtCall.tagQueryCall userId tagNames])

/-- The `searchBookmarks` function of `rag_query/index.ts`: calls the
`match_bookmarks` RPC with threshold `0.1`, count `50`, and
`filter_tag_ids = tagIds.length > 0 ? tagIds : null`. -/
def searchBookmarks (env : RagEnv) (userId : String)
    (queryEmbedding : List ℚ) (tagIds : List String) :
    List RpcMatch × List ExtCall :=
  let filterTagIds := if tagIds.length > 0 then some tagIds else none
  (match_bookmarks env.dist env.db queryEmbedding (1/10) 50 userId
      filterTagIds,
    [ExtCall.searchCall userId filterTagIds])

/-- A JSON response of the edge function: either
`jsonResponse(200, {answer, matches})` or `jsonResponse(status, {error})`. -/
inductive Response where
  | ok (answer : String) (matchList : List RagMatch)
  | err (status : Nat) (error : String)
deriving DecidableEq

/-- The `handleRagQuery` function of `rag_query/index.ts`, returning the
response together with the trace of external calls in order. -/
def handleRagQuery (env : RagEnv) (userId question : String)
    (tags : List String) : Response × List ExtCall :=
  let queryEmbedding := env.embed question
  if queryEmbedding.length = 0 then
    (Response.err 400 "Unable to embed the question",
      [ExtCall.embedCall question])
  else
    let resolved := resolveTagIds env.db userId tags
    let tagIds := resolved.1
    let calls1 := ExtCall.embedCall question :: resolved.2
    if tags.length > 0 ∧ tagIds.length = 0 then
      (Response.ok "No bookmarks found with the selected tags." [], calls1)
    else
      let searched := searchBookmarks env userId queryEmbedding tagIds
      let searchResults := searched.1
      let calls2 := calls1 ++ searched.2
      if searchResults.length = 0 then
        (Response.ok "No matching bookmarks yet." [], calls2)
      else
        let ranked := rankBookmarks searchResults tags
        let prompt := env.ragPrompt question (buildSourcesText ranked)
        if ranked.length ≠ 0 then
          (Response.ok (env.generate prompt) ranked,
            calls2 ++ [ExtCall.generateCall prompt])
        else
          (Response.ok "No matching bookmarks yet." ranked, calls2)

/-- The request body (type `RagPayload` in `rag_query/index.ts`);
`none` fields model absent JSON keys. -/
structure RagPayload where
  question : Option String
  tags : Option (List String)

/-- JavaScript `String.prototype.trim`: remove whitespace from both ends
of the string (modelled structurally over the character list so that it
evaluates on concrete inputs). -/
def jsTrim (s : String) : String :=
  String.mk
    (((s.data.dropWhile Char.isWhitespace).reverse.dropWhile
      Char.isWhitespace).reverse)

/-- The body of the `Deno.serve` handler after CORS, method check and
authentication: parse the payload (`null` body becomes `{}`), trim the
question, default the tags, validate the question length, and delegate
to `handleRagQuery`. -/
def serveHandler (env : RagEnv) (userId : String) (body : Option RagPayload) :
    Response × List ExtCall :=
  let payload := body.getD { question := none, tags := none }
  let question := jsTrim (payload.question.getD "")
  let tags := payload.tags.getD []
  if question.length < 3 then
    (Response.err 400 "Question is too short", [])
  else
    handleRagQuery env userId question tags

/-- Concrete candidate carrying the requested tag twice. -/
def xCand : RpcMatch :=
  { id := "x", user_id := "u", title := "X", url := "", summary := "",
    raw_content := "", tags := ["a", "a"], created_at := "", updated_at := "",
    similarity := 0 }

/-- Concrete candidate with no tags. -/
def yCand : RpcMatch :=
  { id := "y", user_id := "u", title := "Y", url := "", summary := "",
    raw_content := "", tags := [], created_at := "", updated_at := "",
    similarity := 0 }

/-- Concrete candidate carrying the requested tag exactly once. -/
def wX : RpcMatch :=
  { id := "w", user_id := "u", title := "W", url := "", summary := "",
    raw_content := "", tags := ["a"], created_at := "", updated_at := "",
    similarity := 0 }

/-- Database with no bookmarks and a single tag owned by another user. -/
def demoDb1 : Database :=
  { bookmarks := [],
    tags := [{ id := "t1", user_id := "v", name := "ghost" }],
    bookmark_tags := [] }

/-- Environment over `demoDb1` with a total embedder. -/
def demoEnv1 : RagEnv :=
  { embed := fun _ => [1], dist := fun _ _ => 0, generate := fun _ => "ans",
    ragPrompt := fun _ s => s, db := demoDb1 }

/-- A bookmark row owned by user `u` with an embedding present. -/
def demoRow : BookmarkRow :=
  { id := "b1", user_id := "u", title := "T", url := "U", summary := "S",
    raw_content := "R", embedding := some [1], created_at := "",
    updated_at := "" }

/-- Database with the single bookmark `demoRow`. -/
def demoDb2 : Database :=
  { bookmarks := [demoRow], tags := [], bookmark_tags := [] }

/-- Environment over `demoDb2`; every distance is `0`, so `demoRow`
passes the `0.1` similarity threshold. -/
def demoEnv2 : RagEnv :=
  { embed := fun _ => [1], dist := fun _ _ => 0, generate := fun _ => "ans",
    ragPrompt := fun _ s => s, db := demoDb2 }

/-- The ranked match produced from `demoRow` (similarity `1`, no boost). -/
def demoMatch : RagMatch :=
  { bookmark := { id := "b1", title := "T", url := "U", summary := "S",
                  tags := [] },
    score := 1 }

end RagQuery

namespace RagQuery

/-! Helper lemmas about the comparator, the handler branches, membership
in the ranking pipeline, and concrete string rendering. -/

theorem rankLE_trans : ∀ (a b c : RagMatch), rankLE a b → rankLE b c → rankLE a c := by
  intro a b c hab hbc
  simp only [rankLE, decide_eq_true_eq] at *
  exact le_trans hbc hab

theorem rankLE_total : ∀ (a b : RagMatch), rankLE a b || rankLE b a := by
  intro a b
  simp only [rankLE, Bool.or_eq_true, decide_eq_true_eq]
  exact le_total b.score a.score

theorem handleRagQuery_tagGate (env : RagEnv) (u q : String) (tags : List String)
    (h0 : ¬(env.embed q).length = 0)
    (hc : tags.length > 0 ∧ (resolveTagIds env.db u tags).1.length = 0) :
    handleRagQuery env u q tags =
      (Response.ok "No bookmarks found with the selected tags." [],
        ExtCall.embedCall q :: (resolveTagIds env.db u tags).2) := by
  simp only [handleRagQuery, if_neg h0, if_pos hc]

theorem handleRagQuery_emptySearch (env : RagEnv) (u q : String) (tags : List String)
    (h0 : ¬(env.embed q).length = 0)
    (hc : ¬(tags.length > 0 ∧ (resolveTagIds env.db u tags).1.length = 0))
    (hs : (searchBookmarks env u (env.embed q) (resolveTagIds env.db u tags).1).1.length = 0) :
    handleRagQuery env u q tags =
      (Response.ok "No matching bookmarks yet." [],
        ExtCall.embedCall q :: (resolveTagIds env.db u tags).2 ++
          (searchBookmarks env u (env.embed q) (resolveTagIds env.db u tags).1).2) := by
  simp only [handleRagQuery, if_neg h0, if_neg hc, if_pos hs]

theorem handleRagQuery_generate (env : RagEnv) (u q : String) (tags : List String)
    (h0 : ¬(env.embed q).length = 0)
    (hc : ¬(tags.length > 0 ∧ (resolveTagIds env.db u tags).1.length = 0))
    (hs : ¬(searchBookmarks env u (env.embed q) (resolveTagIds env.db u tags).1).1.length = 0)
    (hm : (rankBookmarks (searchBookmarks env u (env.embed q) (resolveTagIds env.db u tags).1).1 tags).length ≠ 0) :
    handleRagQuery env u q tags =
      (Response.ok
        (env.generate (env.ragPrompt q (buildSourcesText
          (rankBookmarks (searchBookmarks env u (env.embed q) (resolveTagIds env.db u tags).1).1 tags))))
        (rankBookmarks (searchBookmarks env u (env.embed q) (resolveTagIds env.db u tags).1).1 tags),
        ExtCall.embedCall q :: (resolveTagIds env.db u tags).2 ++
          (searchBookmarks env u (env.embed q) (resolveTagIds env.db u tags).1).2 ++
          [ExtCall.generateCall (env.ragPrompt q (buildSourcesText
            (rankBookmarks (searchBookmarks env u (env.embed q) (resolveTagIds env.db u tags).1).1 tags)))]) := by
  simp only [handleRagQuery, if_neg h0, if_neg hc, if_neg hs, if_pos hm]

theorem handleRagQuery_calls_ne (env : RagEnv) (u q : String) (tags : List String) :
    (handleRagQuery env u q tags).2 ≠ [] := by
  simp only [handleRagQuery]
  split
  · simp
  · split
    · simp
    · split
      · simp
      · split <;> simp

theorem mem_match_bookmarks
    {dist : List ℚ → List ℚ → ℚ} {db : Database} {qe : List ℚ} {th : ℚ}
    {cnt : Nat} {uid : String} {fil : Option (List String)} {m : RpcMatch}
    (h : m ∈ match_bookmarks dist db qe th cnt uid fil) :
    ∃ b ∈ db.bookmarks, b.user_id = uid ∧ m.id = b.id := by
  simp only [match_bookmarks] at h
  obtain ⟨b, hb, heq⟩ := List.mem_map.mp h
  replace hb := List.mem_mergeSort.mp ((List.take_sublist _ _).subset hb)
  replace hb := List.mem_filter.mp hb
  have hprop := hb.2
  simp only [decide_eq_true_eq] at hprop
  refine ⟨b, hb.1, hprop.2.2.1, ?_⟩
  rw [← heq]

theorem mem_rankBookmarks {r : RagMatch} {l : List RpcMatch}
    {req : List String} {k : Nat} (h : r ∈ rankBookmarks l req k) :
    ∃ m ∈ l, r = toRagMatch req m := by
  rw [rankBookmarks] at h
  replace h := List.mem_mergeSort.mp ((List.take_sublist _ _).subset h)
  obtain ⟨m, hm, heq⟩ := List.mem_map.mp h
  exact ⟨m, hm, heq.symm⟩

theorem intercalate_go_data (s : String) :
    ∀ (as : List String) (acc : String),
      (String.intercalate.go acc s as).data =
        acc.data ++ (as.map (fun a => s.data ++ a.data)).flatten := by
  intro as
  induction as with
  | nil =>
      intro acc
      simp [String.intercalate.go]
  | cons a as ih =>
      intro acc
      simp [String.intercalate.go, ih, List.append_assoc]

theorem list_intercalate_cons {α : Type} (sep : List α) (x : List α)
    (xs : List (List α)) :
    List.intercalate sep (x :: xs) =
      x ++ (xs.map (fun y => sep ++ y)).flatten := by
  induction xs generalizing x with
  | nil => simp [List.intercalate]
  | cons y ys ih =>
      simp only [List.intercalate, List.intersperse_cons_cons,
        List.flatten_cons] at *
      rw [ih y]
      simp [List.append_assoc]

theorem data_intercalate (s : String) (l : List String) :
    (String.intercalate s l).data =
      List.intercalate s.data (l.map String.data) := by
  cases l with
  | nil => rfl
  | cons a as =>
      show (String.intercalate.go a s as).data = _
      rw [intercalate_go_data, List.map_cons, list_intercalate_cons,
        List.map_map]
      rfl

theorem digitChar_ne_newline (n : Nat) : Nat.digitChar n ≠ '\n' := by
  by_cases h16 : n < 16
  · interval_cases n <;> decide
  · unfold Nat.digitChar
    iterate 16 rw [if_neg (by omega)]
    decide

theorem toDigitsCore_ne_newline :
    ∀ (fuel n : Nat) (ds : List Char), (∀ c ∈ ds, c ≠ '\n') →
      ∀ c ∈ Nat.toDigitsCore 10 fuel n ds, c ≠ '\n' := by
  intro fuel
  induction fuel with
  | zero =>
      intro n ds h
      simpa [Nat.toDigitsCore] using h
  | succ f ih =>
      intro n ds h c hc
      simp only [Nat.toDigitsCore] at hc
      split at hc
      · rcases List.mem_cons.mp hc with rfl | hmem
        · exact digitChar_ne_newline _
        · exact h c hmem
      · refine ih (n / 10) (Nat.digitChar (n % 10) :: ds) ?_ c hc
        intro c2 hc2
        rcases List.mem_cons.mp hc2 with rfl | hmem
        · exact digitChar_ne_newline _
        · exact h c2 hmem

theorem repr_ne_newline (n : Nat) : '\n' ∉ (Nat.repr n).data := by
  intro hmem
  exact toDigitsCore_ne_newline (n + 1) n [] (by simp) '\n'
    (by simpa [Nat.repr, Nat.toDigits, List.asString] using hmem) rfl

theorem demoSearch_ne :
    (searchBookmarks demoEnv2 "u" (demoEnv2.embed "hello")
      (resolveTagIds demoEnv2.db "u" []).1).1 ≠ [] := by
  norm_num [searchBookmarks, match_bookmarks, resolveTagIds, demoEnv2,
    demoDb2, demoRow, rowDistance, matchesTagFilter, bookmarkTagNames]

end RagQuery

namespace RagQuery

/-! Claim theorems. -/

/-- Claim C1: when the requested tag-name list is non-empty, the embedding
succeeded, and tag resolution yields zero tag ids for the querying owner,
the handler returns the successful fixed response
"No bookmarks found with the selected tags." with an empty match list, its
call trace is exactly the embedding call followed by the tag query, and in
particular the Candidate Store (`match_bookmarks` search) is never
invoked. -/
theorem claim1_tag_shortcircuit :
    ∀ (env : RagEnv) (u q : String) (tags : List String),
      (env.embed q).length ≠ 0 → tags ≠ [] →
      (resolveTagIds env.db u tags).1 = [] →
      (handleRagQuery env u q tags).1 =
        Response.ok "No bookmarks found with the selected tags." [] ∧
      (handleRagQuery env u q tags).2 =
        [ExtCall.embedCall q, ExtCall.tagQueryCall u tags] ∧
      ∀ uid fil, ExtCall.searchCall uid fil ∉ (handleRagQuery env u q tags).2 := by
  intro env u q tags h0 ht hr
  have hlen : ¬ tags.length = 0 := by simp [List.length_eq_zero, ht]
  have hres := handleRagQuery_tagGate env u q tags h0
    ⟨List.length_pos.mpr ht, by rw [hr]; rfl⟩
  have hres2 : (resolveTagIds env.db u tags).2 =
      [ExtCall.tagQueryCall u tags] := by
    rw [resolveTagIds, if_neg hlen]
  rw [hres, hres2]
  refine ⟨rfl, rfl, ?_⟩
  intro uid fil
  simp

/-- Witness for C1 at a concrete environment: the tag "ghost" exists only
for another user, so resolution for user "u" yields no ids. -/
theorem claim1_witness :
    (handleRagQuery demoEnv1 "u" "hello" ["ghost"]).1 =
      Response.ok "No bookmarks found with the selected tags." [] :=
  (claim1_tag_shortcircuit demoEnv1 "u" "hello" ["ghost"] (by decide)
    (by decide) (by decide)).1

/-- Claim C2 counterexample: candidate `xCand` carries the single
requested tag "a" twice in its tag list, so the code boosts it by
`2/1 * 0.2 = 0.4`, not by the claimed
`(number of requested tags present / number of requested tags) * 0.2 = 0.2`:
against the otherwise-identical zero-overlap candidate `yCand` the score
difference is `2/5`, not `1/5 = BOOST_WEIGHT`. -/
theorem claim2_counterexample :
    xCand.similarity = yCand.similarity ∧
    (∀ t ∈ ["a"], t ∈ xCand.tags) ∧
    (∀ t ∈ yCand.tags, t ∉ ["a"]) ∧
    (toRagMatch ["a"] xCand).score - (toRagMatch ["a"] yCand).score = 2/5 ∧
    (toRagMatch ["a"] xCand).score - (toRagMatch ["a"] yCand).score ≠ 1/5 := by
  refine ⟨rfl, by decide, by decide, ?_, ?_⟩ <;> norm_num [xCand, yCand, toRagMatch]

/-- Claim C2 (amended): the ranker scores each candidate as
`similarity + (count of the candidate own tags that occur in the request /
request length) * 0.2`; with an empty request the score is the similarity
alone; a candidate whose in-request tag count equals the request length
scores exactly `0.2` above an equal-similarity candidate with zero
overlap; and zero-overlap candidates are still ranked, not excluded. -/
theorem claim2_amended_thm :
    ∀ (req : List String) (m m2 : RpcMatch),
      (req = [] → (toRagMatch req m).score = m.similarity) ∧
      (req ≠ [] →
        (toRagMatch req m).score =
          m.similarity +
            (m.tags.countP (fun t => t ∈ req) : ℚ) / (req.length : ℚ) * (1/5)) ∧
      (req ≠ [] → m.similarity = m2.similarity →
        m.tags.countP (fun t => t ∈ req) = req.length →
        m2.tags.countP (fun t => t ∈ req) = 0 →
        (toRagMatch req m).score = (toRagMatch req m2).score + 1/5) ∧
      (∀ (ms : List RpcMatch), m ∈ ms →
        toRagMatch req m ∈ (ms.map (toRagMatch req)).mergeSort rankLE) := by
  intro req m m2
  have hcount : ∀ (mm : RpcMatch),
      ((mm.tags.filter (fun t => req.contains t)).length : ℚ) =
        (mm.tags.countP (fun t => t ∈ req) : ℚ) := by
    intro mm
    congr 1
    rw [List.countP_eq_length_filter]
    simp only [List.contains, List.elem_eq_mem]
  refine ⟨?_, ?_, ?_, ?_⟩
  · intro h
    simp [toRagMatch, h]
  · intro h
    have hl : req.length > 0 := List.length_pos.mpr h
    simp only [toRagMatch, if_pos hl]
    rw [hcount]
  · intro h hsim hm hm2
    have hl : req.length > 0 := List.length_pos.mpr h
    have hl2 : (req.length : ℚ) ≠ 0 := by positivity
    simp only [toRagMatch, if_pos hl]
    rw [hcount, hcount, hm, hm2, hsim]
    field_simp
  · intro ms hm
    exact List.mem_mergeSort.mpr (List.mem_map_of_mem _ hm)

/-- Witness for C2 (amended) at concrete candidates: `wX` carries the one
requested tag once and scores exactly `1/5` above the zero-overlap
candidate `yCand`. -/
theorem claim2_witness :
    (toRagMatch ["a"] wX).score = (toRagMatch ["a"] yCand).score + 1/5 :=
  (claim2_amended_thm ["a"] wX yCand).2.2.1 (by decide) rfl (by decide) (by decide)

/-- Claim C3: for every candidate list and every `topK`, the ranker
returns exactly `min (number of candidates) topK` matches, and the empty
candidate list yields the empty match list. -/
theorem claim3_count :
    ∀ (ms : List RpcMatch) (req : List String) (k : Nat),
      (rankBookmarks ms req k).length = min ms.length k ∧
      rankBookmarks [] req k = [] := by
  intro ms req k
  refine ⟨?_, ?_⟩
  · simp [rankBookmarks, List.length_take, Nat.min_comm]
  · simp [rankBookmarks]

/-- Claim C4: the ranker output is pairwise descending in `score`, and
for every score value the equal-score matches of the output form a prefix
of the equal-score candidates of the (mapped) input, i.e. ties keep their
input order (stable sort) and truncation only drops a suffix. -/
theorem claim4_sorted_stable :
    ∀ (ms : List RpcMatch) (req : List String) (k : Nat),
      List.Pairwise (fun a b : RagMatch => b.score ≤ a.score)
        (rankBookmarks ms req k) ∧
      ∀ s : ℚ, ∃ rest,
        (ms.map (toRagMatch req)).filter (fun a => a.score = s) =
          (rankBookmarks ms req k).filter (fun a => a.score = s) ++ rest := by
  intro ms req k
  constructor
  · have h := List.sorted_mergeSort rankLE_trans rankLE_total
      (ms.map (toRagMatch req))
    have h2 : List.Pairwise (fun a b : RagMatch => b.score ≤ a.score)
        ((ms.map (toRagMatch req)).mergeSort rankLE) := by
      refine h.imp ?_
      intro a b hab
      simpa [rankLE] using hab
    exact List.Pairwise.sublist (List.take_sublist _ _) h2
  · intro s
    have hfilter :
        (ms.map (toRagMatch req)).filter (fun a => a.score = s) =
          ((ms.map (toRagMatch req)).mergeSort rankLE).filter
            (fun a => a.score = s) := by
      have hc_pair :
          ((ms.map (toRagMatch req)).filter (fun a => a.score = s)).Pairwise
            (fun a b => rankLE a b) := by
        apply List.pairwise_of_forall_mem_list
        intro a ha b hb
        have ha2 := (List.mem_filter.mp ha).2
        have hb2 := (List.mem_filter.mp hb).2
        simp only [decide_eq_true_eq] at ha2 hb2
        simp only [rankLE, decide_eq_true_eq]
        rw [ha2, hb2]
      have hsub := List.sublist_mergeSort rankLE_trans rankLE_total hc_pair
        (List.filter_sublist _)
      have hself :
          ((ms.map (toRagMatch req)).filter (fun a => a.score = s)).filter
            (fun a => a.score = s) =
          (ms.map (toRagMatch req)).filter (fun a => a.score = s) :=
        List.filter_eq_self.mpr (fun a ha => (List.mem_filter.mp ha).2)
      have hsubf := hself ▸
        (List.Sublist.filter (fun a : RagMatch => decide (a.score = s)) hsub)
      have hperm : List.Perm
          (((ms.map (toRagMatch req)).mergeSort rankLE).filter
            (fun a : RagMatch => decide (a.score = s)))
          ((ms.map (toRagMatch req)).filter
            (fun a : RagMatch => decide (a.score = s))) :=
        (List.mergeSort_perm _ rankLE).filter _
      exact hsubf.eq_of_length hperm.length_eq.symm
    refine ⟨(((ms.map (toRagMatch req)).mergeSort rankLE).drop k).filter
      (fun a : RagMatch => decide (a.score = s)), ?_⟩
    rw [hfilter, rankBookmarks]
    rw [← List.filter_append, List.take_append_drop]

end RagQuery

namespace RagQuery

/-- Claim C5 counterexample: the question "abc" trims to length 3, which
"does not exceed 3 characters", yet the handler does not return the
validation rejection: it proceeds (making external calls) and answers
"No matching bookmarks yet." over the empty corpus. -/
theorem claim5_counterexample :
    ((jsTrim "abc").length ≤ 3) ∧
    (serveHandler demoEnv1 "u" (some { question := some "abc", tags := none })).1 ≠
      Response.err 400 "Question is too short" ∧
    (serveHandler demoEnv1 "u" (some { question := some "abc", tags := none })).2 ≠ [] := by
  have htrim : jsTrim "abc" = "abc" := rfl
  refine ⟨by rw [htrim]; decide, ?_, ?_⟩ <;>
    simp [serveHandler, htrim, handleRagQuery, resolveTagIds, searchBookmarks,
      match_bookmarks, demoEnv1, demoDb1] <;> decide

/-- Claim C5 (amended): the top-level handler returns the validation
rejection ("Question is too short", status 400) with no external call
made exactly when the trimmed question is shorter than 3 characters;
any trimmed question of length at least 3 passes validation. -/
theorem claim5_amended_validation :
    ∀ (env : RagEnv) (u : String) (body : Option RagPayload),
      ((serveHandler env u body).1 = Response.err 400 "Question is too short" ∧
        (serveHandler env u body).2 = []) ↔
      (jsTrim ((body.getD { question := none, tags := none }).question.getD "")).length < 3 := by
  intro env u body
  constructor
  · rintro ⟨-, h2⟩
    by_contra hlen
    simp only [serveHandler, if_neg hlen] at h2
    exact handleRagQuery_calls_ne env u _ _ h2
  · intro hlen
    simp [serveHandler, if_pos hlen]

/-- Claim C6: when the embedding succeeded, the tag gate passed, and the
Candidate Store returns zero candidates, the handler returns the
successful fixed response "No matching bookmarks yet." with an empty
match list and the answer generator is never invoked. -/
theorem claim6_emptyStore :
    ∀ (env : RagEnv) (u q : String) (tags : List String),
      (env.embed q).length ≠ 0 →
      (tags = [] ∨ (resolveTagIds env.db u tags).1 ≠ []) →
      (searchBookmarks env u (env.embed q) (resolveTagIds env.db u tags).1).1 = [] →
      (handleRagQuery env u q tags).1 =
        Response.ok "No matching bookmarks yet." [] ∧
      ∀ p, ExtCall.generateCall p ∉ (handleRagQuery env u q tags).2 := by
  intro env u q tags h0 hg hs
  have hc : ¬(tags.length > 0 ∧ (resolveTagIds env.db u tags).1.length = 0) := by
    rcases hg with h | h
    · rintro ⟨h1, -⟩
      simp [h] at h1
    · rintro ⟨-, h2⟩
      exact h (List.length_eq_zero.mp h2)
  have hres := handleRagQuery_emptySearch env u q tags h0 hc (by rw [hs]; rfl)
  rw [hres]
  refine ⟨rfl, ?_⟩
  intro p
  by_cases hlen : tags.length = 0
  · simp [resolveTagIds, hlen, searchBookmarks]
  · simp [resolveTagIds, hlen, searchBookmarks]

/-- Witness for C6 over the empty bookmark corpus. -/
theorem claim6_witness :
    (handleRagQuery demoEnv1 "u" "hello" []).1 =
      Response.ok "No matching bookmarks yet." [] :=
  (claim6_emptyStore demoEnv1 "u" "hello" [] (by decide) (Or.inl rfl)
    (by simp [searchBookmarks, match_bookmarks, demoEnv1, demoDb1])).1

/-- Claim C7 counterexample: the formatter renders the separator between
title and summary as the source file literal "â€”" (mojibake), not as the
em dash "—" stated by the claim. -/
theorem claim7_counterexample :
    buildSourcesText [demoMatch] = "[S1] T â€” S" ∧
    buildSourcesText [demoMatch] ≠ "[S1] T — S" := by
  constructor <;> decide

/-- Claim C7 (amended): the empty match list renders to the empty string,
and for a non-empty match list whose titles and summaries contain no
newline the rendered text splits on the newline into exactly K lines,
line i being `[S(i+1)] title â€” summary` of match i in rank order —
built only from each match title and summary (a `RagMatch` carries no
raw content at all). -/
theorem claim7_amended :
    buildSourcesText [] = "" ∧
    ∀ (ms : List RagMatch), ms ≠ [] →
      (∀ m ∈ ms, '\n' ∉ m.bookmark.title.data ∧
        '\n' ∉ m.bookmark.summary.data) →
      ((buildSourcesText ms).data.splitOn '\n') =
        ms.enum.map (fun p =>
          ("[S" ++ toString (p.1 + 1) ++ "] " ++ p.2.bookmark.title ++
            " â€” " ++ p.2.bookmark.summary).data) := by
  refine ⟨rfl, ?_⟩
  intro ms hne h
  rw [buildSourcesText, data_intercalate, List.map_map]
  have hdata : ("\n" : String).data = ['\n'] := rfl
  rw [hdata]
  have hsp := List.splitOn_intercalate (ms.enum.map
    (fun p => ("[S" ++ toString (p.1 + 1) ++ "] " ++ p.2.bookmark.title ++
      " â€” " ++ p.2.bookmark.summary).data)) '\n' ?_ ?_
  · exact hsp
  · intro l hl
    obtain ⟨p, hp, rfl⟩ := List.mem_map.mp hl
    have hm : p.2 ∈ ms := by
      have := List.mem_map_of_mem Prod.snd hp
      rwa [List.enum_eq_enumFrom, List.enumFrom_map_snd] at this
    obtain ⟨ht, hs⟩ := h p.2 hm
    intro hmem
    simp only [String.data_append, List.mem_append] at hmem
    rcases hmem with (((((h1 | h2) | h3) | h4) | h5) | h6)
    · exact absurd h1 (by decide)
    · exact repr_ne_newline _ h2
    · exact absurd h3 (by decide)
    · exact ht h4
    · exact absurd h5 (by decide)
    · exact hs h6
  · intro hmap
    apply hne
    have : ms.enum = [] := List.map_eq_nil_iff.mp hmap
    rwa [List.enum_eq_enumFrom, List.enumFrom_eq_nil] at this

/-- Witness for C7 (amended) at a singleton match list. -/
theorem claim7_witness :
    ((buildSourcesText [demoMatch]).data.splitOn '\n') =
      [demoMatch].enum.map (fun p =>
        ("[S" ++ toString (p.1 + 1) ++ "] " ++ p.2.bookmark.title ++
          " â€” " ++ p.2.bookmark.summary).data) :=
  claim7_amended.2 [demoMatch] (by simp) (by decide)

end RagQuery

namespace RagQuery

/-- Claim C8: every match returned by the handler stems from a bookmark
row of the querying owner — candidate retrieval filters rows on the
authenticated user id and the ranker only projects candidates it
received, so no other user bookmark can appear. -/
theorem claim8_owner_only :
    ∀ (env : RagEnv) (u q : String) (tags : List String) (a : String)
      (ms : List RagMatch),
      (handleRagQuery env u q tags).1 = Response.ok a ms →
      ∀ r ∈ ms, ∃ b ∈ env.db.bookmarks, b.user_id = u ∧ r.bookmark.id = b.id := by
  intro env u q tags a ms h r hr
  have main : ∀ mm ∈ (searchBookmarks env u (env.embed q)
      (resolveTagIds env.db u tags).1).1, ∃ b ∈ env.db.bookmarks,
      b.user_id = u ∧ mm.id = b.id := by
    intro mm hmm
    simp only [searchBookmarks] at hmm
    exact mem_match_bookmarks hmm
  simp only [handleRagQuery] at h
  split at h
  · simp at h
  · split at h
    · simp only [Prod.fst] at h
      obtain ⟨-, h2⟩ := Response.ok.inj h
      rw [← h2] at hr
      simp at hr
    · split at h
      · simp only [Prod.fst] at h
        obtain ⟨-, h2⟩ := Response.ok.inj h
        rw [← h2] at hr
        simp at hr
      · split at h <;>
        · simp only [Prod.fst] at h
          obtain ⟨-, h2⟩ := Response.ok.inj h
          rw [← h2] at hr
          obtain ⟨mm, hmm, rfl⟩ := mem_rankBookmarks hr
          obtain ⟨b, hb, hu, hid⟩ := main mm hmm
          exact ⟨b, hb, hu, hid⟩

/-- Witness for C8: in `demoEnv2` the handler returns the single match
`demoMatch`, whose underlying bookmark row is owned by "u". -/
theorem claim8_witness :
    ∃ b ∈ demoEnv2.db.bookmarks, b.user_id = "u" ∧
      demoMatch.bookmark.id = b.id :=
  claim8_owner_only demoEnv2 "u" "hello" [] "ans" [demoMatch]
    (by norm_num [handleRagQuery, resolveTagIds, searchBookmarks,
      match_bookmarks, rankBookmarks, toRagMatch, bookmarkTagNames,
      rowDistance, matchesTagFilter, demoEnv2, demoDb2, demoRow, demoMatch])
    demoMatch (by simp)

/-- Claim C9: a non-empty candidate list with `topK ≥ 1` always yields a
non-empty ranking; consequently whenever the Candidate Store returns at
least one candidate (and the earlier gates passed), the handler invokes
the generator and returns its output, so the inline
"No matching bookmarks yet." fallback on the generation line is
unreachable. -/
theorem claim9_generator_always :
    (∀ (ms : List RpcMatch) (req : List String) (k : Nat),
      ms ≠ [] → 1 ≤ k → rankBookmarks ms req k ≠ []) ∧
    (∀ (env : RagEnv) (u q : String) (tags : List String),
      (env.embed q).length ≠ 0 →
      (tags = [] ∨ (resolveTagIds env.db u tags).1 ≠ []) →
      (searchBookmarks env u (env.embed q) (resolveTagIds env.db u tags).1).1 ≠ [] →
      ∃ prompt,
        (handleRagQuery env u q tags).1 =
          Response.ok (env.generate prompt)
            (rankBookmarks
              (searchBookmarks env u (env.embed q)
                (resolveTagIds env.db u tags).1).1 tags) ∧
        ExtCall.generateCall prompt ∈ (handleRagQuery env u q tags).2) := by
  have part1 : ∀ (ms : List RpcMatch) (req : List String) (k : Nat),
      ms ≠ [] → 1 ≤ k → rankBookmarks ms req k ≠ [] := by
    intro ms req k hms hk
    have hlen : (rankBookmarks ms req k).length = min ms.length k := by
      simp [rankBookmarks, List.length_take, Nat.min_comm]
    have h1 : 1 ≤ ms.length := List.length_pos.mpr hms
    have : 0 < (rankBookmarks ms req k).length := by
      rw [hlen]
      exact lt_min_iff.mpr ⟨h1, hk⟩
    exact List.ne_nil_of_length_pos this
  refine ⟨part1, ?_⟩
  intro env u q tags h0 hg hs
  have hc : ¬(tags.length > 0 ∧ (resolveTagIds env.db u tags).1.length = 0) := by
    rcases hg with h | h
    · rintro ⟨h1, -⟩
      simp [h] at h1
    · rintro ⟨-, h2⟩
      exact h (List.length_eq_zero.mp h2)
  have hm : (rankBookmarks
      (searchBookmarks env u (env.embed q) (resolveTagIds env.db u tags).1).1
        tags).length ≠ 0 := by
    intro hzero
    exact part1 _ tags 5 hs (by norm_num) (List.length_eq_zero.mp hzero)
  have hres := handleRagQuery_generate env u q tags h0 hc
    (by simpa [List.length_eq_zero] using hs) hm
  refine ⟨env.ragPrompt q (buildSourcesText
    (rankBookmarks
      (searchBookmarks env u (env.embed q) (resolveTagIds env.db u tags).1).1
        tags)), ?_, ?_⟩
  · rw [hres]
  · rw [hres]
    simp

/-- Witness for C9 at `demoEnv2`, whose store query returns one
candidate. -/
theorem claim9_witness :
    ∃ prompt,
      (handleRagQuery demoEnv2 "u" "hello" []).1 =
        Response.ok (demoEnv2.generate prompt)
          (rankBookmarks
            (searchBookmarks demoEnv2 "u" (demoEnv2.embed "hello")
              (resolveTagIds demoEnv2.db "u" []).1).1 []) ∧
      ExtCall.generateCall prompt ∈ (handleRagQuery demoEnv2 "u" "hello" []).2 :=
  claim9_generator_always.2 demoEnv2 "u" "hello" [] (by decide) (Or.inl rfl)
    demoSearch_ne

/-- Claim C10: the handler forwards the request tag list verbatim to tag
resolution (no lowercasing, trimming or deduplication); a requested tag
contributes to the boost only by case-sensitive string equality (a tag
differing only in letter case yields zero overlap, score = similarity);
and duplicating the request list leaves the overlap count unchanged while
doubling the denominator, halving the boost. -/
theorem claim10_raw_tags :
    (∀ (env : RagEnv) (u q : String) (ts : List String),
      ts ≠ [] → ¬((jsTrim q).length < 3) →
      (env.embed (jsTrim q)).length ≠ 0 →
      ExtCall.tagQueryCall u ts ∈
        (serveHandler env u (some { question := some q, tags := some ts })).2) ∧
    (∀ (req : List String) (m : RpcMatch),
      (∀ t ∈ m.tags, t ∉ req) → (toRagMatch req m).score = m.similarity) ∧
    (∀ (m : RpcMatch), m.tags = ["Rust"] →
      (toRagMatch ["rust"] m).score = m.similarity) ∧
    (∀ (req : List String) (m : RpcMatch), req ≠ [] →
      (toRagMatch (req ++ req) m).score - m.similarity =
        ((toRagMatch req m).score - m.similarity) / 2) := by
  have part2 : ∀ (req : List String) (m : RpcMatch),
      (∀ t ∈ m.tags, t ∉ req) → (toRagMatch req m).score = m.similarity := by
    intro req m hdisj
    have hfil : m.tags.filter (fun t => req.contains t) = [] := by
      refine List.filter_eq_nil_iff.mpr ?_
      intro t ht
      simp only [List.contains, List.elem_eq_mem, decide_eq_true_eq]
      exact hdisj t ht
    simp only [toRagMatch, hfil]
    split <;> simp
  refine ⟨?_, part2, ?_, ?_⟩
  · intro env u q ts hts hlen h0
    have hres2 : (resolveTagIds env.db u ts).2 =
        [ExtCall.tagQueryCall u ts] := by
      rw [resolveTagIds, if_neg (by simp [List.length_eq_zero, hts])]
    simp only [serveHandler, Option.getD_some, if_neg hlen, handleRagQuery,
      if_neg h0]
    split
    · simp [hres2]
    · split
      · simp [hres2]
      · split <;> simp [hres2]
  · intro m hm
    refine part2 ["rust"] m ?_
    intro t ht
    rw [hm] at ht
    simp only [List.mem_singleton] at ht
    rw [ht]
    decide
  · intro req m hreq
    have hl : req.length > 0 := List.length_pos.mpr hreq
    have hl2 : (req ++ req).length > 0 := by
      simp [List.length_append]
      omega
    have hfil : m.tags.filter (fun t => (req ++ req).contains t) =
        m.tags.filter (fun t => req.contains t) := by
      refine List.filter_congr ?_
      intro t ht
      simp [List.contains, List.elem_eq_mem]
    have hQ : (req.length : ℚ) ≠ 0 := by positivity
    have hboost : ∀ (rq : List String), rq.length > 0 → ∀ (mm : RpcMatch),
        (toRagMatch rq mm).score = mm.similarity +
          ((mm.tags.filter (fun t => rq.contains t)).length : ℚ) /
            (rq.length : ℚ) * (1/5) := by
      intro rq hrq mm
      simp only [toRagMatch, if_pos hrq]
    rw [hboost _ hl2, hboost _ hl, hfil, List.length_append]
    push_cast
    field_simp
    ring

/-- Witness for C10: the tag list `["a"]` is forwarded verbatim to the
tag query. -/
theorem claim10_witness :
    ExtCall.tagQueryCall "u" ["a"] ∈
      (serveHandler demoEnv2 "u"
        (some { question := some "hello", tags := some ["a"] })).2 :=
  claim10_raw_tags.1 demoEnv2 "u" "hello" ["a"] (by decide) (by decide)
    (by decide)

end RagQuery
